import Mathlib

/-!
Verification of the hierarchy-materialization engine of the aws-s3 module
(service `AwsS3FileService`, gateway `AwsS3Service`).

The repository ships two near-duplicate revisions of `AwsS3FileService`,
concatenated in `aws-s3-file.service.ts`: the first (lines 1-536) uses a
check-then-create folder policy, a collision lookup in `uploadFile`, and a
two-pass `syncFilesFromS3ToDatabase`; the second (lines 538-1013) creates
folder chains unconditionally, has a `useOriginalName` flag, and a one-pass
sync.  Definitions for the second revision carry a `V2` suffix.  The
multipart operations and `deleteFile` are identical in both revisions and
are embedded once.

Modelling conventions, all taken from the source:
- A database row of the `s3File` table is `S3File`.  Ids are cuid strings
  in the source; they are always distinct and never empty, so they are
  modelled as `Nat`, assigned from a fresh counter on create.
- Prisma semantics: a `where` condition whose value is `undefined` is
  dropped (`parentFilter`); an `update` field whose value is `undefined`
  is skipped (`setIfSome`); `findFirst` returns the first row in table
  order; `create` appends; `delete` removes the row and fails when the row
  does not exist.
- The object store (`AwsS3Service`) is an outside collaborator.  Calls to
  it are recorded in an event trace inside the state; its responses are
  abstract tokens drawn from a counter, and the outcomes of its fallible
  calls (delete, upload part, complete) are inputs of the embedding.
- `generateUuid` and `generateRandomString(6)` are random; they are
  modelled by oracle functions in `Env` consumed through counters.
- JavaScript truthiness on optional strings (`if (params.path)`) treats
  the empty string as absent (`optStrTruthy`).
- Errors are surfaced as `Except`; since a thrown exception does not roll
  back committed database writes, every operation returns the state it
  reached together with its outcome.
-/

namespace NewbieS3

/-- One row of the `s3File` table (model `S3File` of the schema, fields as
selected throughout `aws-s3-file.service.ts`). -/
structure S3File where
  id : Nat
  name : String
  type : Option String
  size : Option Nat
  s3Bucket : String
  s3Key : String
  s3Response : Option Nat
  parentId : Option Nat
  uploadId : Option String
  uploadProgress : Option Nat
deriving Repr, DecidableEq

/-- One entry of a bucket listing, as returned by
`AwsS3Service.getObjectsRecursively`. -/
structure S3Object where
  s3Key : String
  size : Option Nat
deriving Repr, DecidableEq

/-- Calls issued against the object store, plus index row deletions; the
trace records them in order. -/
inductive Event where
  | putObject (key : String) (hasBody : Bool)
  | storeList
  | deleteObjectRecursively (bucket key : String)
  | storeCreateMultipart (key : String)
  | storeUploadPart (key uploadId : String) (partNumber : Nat)
  | storeComplete (key uploadId : String) (parts : List (String × Nat))
  | dbDelete (id : Nat)
deriving Repr, DecidableEq

/-- Error taxonomy of the service layer. -/
inductive Err where
  | conflict
  | emptyFolderName
  | bothParentAndPath
  | notFound
  | storeFailure (code : Nat)
  | outOfFuel
deriving Repr, DecidableEq

/-- Equality of outcomes is decidable, so concrete runs can be checked by
evaluation. -/
instance exceptDecEq {ε α : Type} [DecidableEq ε] [DecidableEq α] :
    DecidableEq (Except ε α) := fun x y =>
  match x, y with
  | .ok a, .ok b =>
    if h : a = b then isTrue (by rw [h])
    else isFalse (fun hc => by cases hc; exact h rfl)
  | .error a, .error b =>
    if h : a = b then isTrue (by rw [h])
    else isFalse (fun hc => by cases hc; exact h rfl)
  | .ok _, .error _ => isFalse (fun hc => by cases hc)
  | .error _, .ok _ => isFalse (fun hc => by cases hc)

/-- Oracles for the random generators of `@framework/utilities/random.util`. -/
structure Env where
  uuid : Nat → String
  rand6 : Nat → String

/-- Combined state: the `s3File` table (with its id supply), the counters
feeding the random oracles and the abstract store responses, and the trace
of store calls and row deletions. -/
structure St where
  rows : List S3File
  nextId : Nat
  uuidCtr : Nat
  randCtr : Nat
  respCtr : Nat
  trace : List Event
deriving Repr, DecidableEq

/-- Prisma drops a `where` condition whose value is `undefined`: the
`parentId` filters of the service pass `params.parentId` straight through,
so a missing parent id matches every row. -/
def parentFilter (filter actual : Option Nat) : Bool :=
  match filter with
  | none => true
  | some p => actual == some p

/-- Prisma skips an `update` field whose value is `undefined`. -/
def setIfSome {α : Type} (newVal old : Option α) : Option α :=
  match newVal with
  | none => old
  | some v => some v

/-- JavaScript truthiness of an optional string: absent or empty is falsy. -/
def optStrTruthy (o : Option String) : Bool :=
  match o with
  | none => false
  | some s => !(s == "")

/-- Splitting a character list at a separator character; like the JS
`split`, the result always has at least one (possibly empty) piece. -/
def splitChars (c : Char) : List Char → List (List Char)
  | [] => [[]]
  | x :: xs =>
    if x == c then [] :: splitChars c xs
    else
      match splitChars c xs with
      | [] => [[x]]
      | p :: ps => (x :: p) :: ps

/-- JS `s.split(c)` for a one-character separator. -/
def splitOnChar (c : Char) (s : String) : List String :=
  (splitChars c s.data).map String.mk

/-- JS `s.endsWith(c)` for a one-character suffix. -/
def endsWithChar (c : Char) (s : String) : Bool :=
  s.data.getLast? == some c

/-- JS `s.slice(0, -n)`: drop the last `n` characters. -/
def dropRightStr (s : String) (n : Nat) : String :=
  String.mk (s.data.take (s.data.length - n))

/-- JS `parts.join("/")`. -/
def joinSlash : List String → String
  | [] => ""
  | [x] => x
  | x :: y :: xs => x ++ "/" ++ joinSlash (y :: xs)

/-- Node path extname: the suffix of the name from its last dot; empty
when there is no dot, when the only dot is the leading character, or for
the names "." and "..". -/
def extname (s : String) : String :=
  if s == "." || s == ".." then ""
  else
    match splitOnChar '.' s with
    | [] => ""
    | [_] => ""
    | ["", _] => ""
    | parts => "." ++ parts.getLastD ""

/-- The regex `^\/+|\/+$` replacement of `createFolder`: strip leading and
trailing slashes. -/
def trimSlashes (s : String) : String :=
  String.mk (((s.toList.dropWhile (fun c => c == '/')).reverse.dropWhile
    (fun c => c == '/')).reverse)

/- `AwsS3Service.putObject` is a collaborator call: it yields the abstract
response `st.respCtr` and is recorded in the trace; each operation below
inlines it into one state update together with its subsequent row write. -/

/-- Model of `getFilePathString(fileId)`: walk `parentId` to the root, joining names
with a slash, root first.  The walk is fuelled; the source would loop on a
cyclic parent chain. -/
def getFilePathString (rows : List S3File) : Nat → Nat → Except Err String
  | 0, _ => .error .outOfFuel
  | fuel + 1, fileId =>
    match rows.find? (fun r => r.id == fileId) with
    | none => .error .notFound
    | some r =>
      match r.parentId with
      | none => .ok r.name
      | some p =>
        match getFilePathString rows fuel p with
        | .error e => .error e
        | .ok pre => .ok (pre ++ "/" ++ r.name)

/-- The `findFirst` condition of `createFolder` (first revision): a folder
row with this name under the current parent. -/
def folderMatch (seg : String) (parentId : Option Nat) (r : S3File) : Bool :=
  r.name == seg && r.type == some "folder" && parentFilter parentId r.parentId

/-- The key computed for a folder segment about to be created:
`getFilePathString(parentId) + "/" + seg` under a parent, else `seg`. -/
def folderKeyFor (rows : List S3File) (fuel : Nat) (parentId : Option Nat)
    (seg : String) : Except Err String :=
  match parentId with
  | none => .ok seg
  | some p =>
    match getFilePathString rows fuel p with
    | .error e => .error e
    | .ok pre => .ok (pre ++ "/" ++ seg)

/-- The segment loop of `createFolder` (first revision, lines 117-156):
skip empty segments; descend into an existing folder when the lookup hits;
otherwise write a zero-length object at the key plus a trailing slash and
create the folder row. -/
def createFolderLoop (bucket : String) (fuel : Nat) :
    List String → Option Nat → St → Except Err (Option Nat) × St
  | [], parentId, st => (.ok parentId, st)
  | seg :: rest, parentId, st =>
    if seg.length = 0 then
      createFolderLoop bucket fuel rest parentId st
    else
      match st.rows.find? (folderMatch seg parentId) with
      | some f => createFolderLoop bucket fuel rest (some f.id) st
      | none =>
        match folderKeyFor st.rows fuel parentId seg with
        | .error e => (.error e, st)
        | .ok s3Key =>
          createFolderLoop bucket fuel rest (some st.nextId)
            { st with
              rows := st.rows ++
                [{ id := st.nextId, name := seg, type := some "folder",
                   size := none, s3Bucket := bucket, s3Key := s3Key,
                   s3Response := some st.respCtr, parentId := parentId,
                   uploadId := none, uploadProgress := none }],
              nextId := st.nextId + 1, respCtr := st.respCtr + 1,
              trace := st.trace ++ [Event.putObject (s3Key ++ "/") false] }

/-- Model of `createFolder` of the first revision (lines 107-158): trim slashes,
split on `/`, run the check-then-create loop, return the last folder id. -/
def createFolder (bucket : String) (fuel : Nat) (path : String)
    (parentId : Option Nat) (st : St) : Except Err (Option Nat) × St :=
  createFolderLoop bucket fuel (splitOnChar '/' (trimSlashes path)) parentId st

/-- The segment loop of `createFolder` of the second revision (lines
629-661): no lookup, every non-empty segment creates a row; the key of the
first created segment is resolved from the parent, later ones extend the
accumulated key. -/
def createFolderLoopV2 (bucket : String) (fuel : Nat) :
    List String → Option Nat → String → Nat → St → Except Err (Option Nat) × St
  | [], parentId, _, _, st => (.ok parentId, st)
  | seg :: rest, parentId, acc, j, st =>
    if seg.length = 0 then
      createFolderLoopV2 bucket fuel rest parentId acc j st
    else
      match (if j = 0 then folderKeyFor st.rows fuel parentId seg
             else .ok (acc ++ "/" ++ seg)) with
      | .error e => (.error e, st)
      | .ok s3Key =>
        createFolderLoopV2 bucket fuel rest (some st.nextId) s3Key (j + 1)
          { st with
            rows := st.rows ++
              [{ id := st.nextId, name := seg, type := some "folder",
                 size := none, s3Bucket := bucket, s3Key := s3Key,
                 s3Response := some st.respCtr, parentId := parentId,
                 uploadId := none, uploadProgress := none }],
            nextId := st.nextId + 1, respCtr := st.respCtr + 1,
            trace := st.trace ++ [Event.putObject (s3Key ++ "/") false] }

/-- Model of `createFolder` of the second revision (lines 616-664): rejects only the
literal empty name (`split` then yields exactly one empty segment), then
runs the unconditional creation loop. -/
def createFolderV2 (bucket : String) (fuel : Nat) (name : String)
    (parentId : Option Nat) (st : St) : Except Err (Option Nat) × St :=
  let folderNames := splitOnChar '/' name
  if folderNames.length == 1 && (folderNames.headD "").length == 0 then
    (.error .emptyFolderName, st)
  else
    createFolderLoopV2 bucket fuel folderNames parentId "" 0 st

/-- The `select {id, name}` shape returned by the upload operations. -/
structure FileIdName where
  id : Nat
  name : String
deriving Repr, DecidableEq

/-- Parameters of `uploadFile` of the first revision (lines 161-169); the
byte payload itself does not influence the index and is omitted. -/
structure UploadParams where
  name : Option String
  type : Option String
  size : Option Nat
  parentId : Option Nat
  path : Option String
  overwrite : Option Bool
deriving Repr, DecidableEq

/-- The disambiguated file name of the collision branch (lines 207-213):
the random suffix goes before the extension, or at the end when there is
none. -/
def disambName (rand : String) (n : String) : String :=
  if extname n == "" then n ++ rand
  else dropRightStr n (extname n).length ++ rand ++ extname n

/-- Model of `params.parentId ? getFilePathString(parentId) + "/" : ""`, the
directory part prepended to a chosen file name in `uploadFile`. -/
def dirOfParent (rows : List S3File) (fuel : Nat) :
    Option Nat → Except Err String
  | none => .ok ""
  | some p =>
    match getFilePathString rows fuel p with
    | .error e => .error e
    | .ok pre => .ok (pre ++ "/")

/-- Steps 2-4 of `uploadFile` (first revision, lines 199-261), after the
existing-file lookup: choose name and key by the collision policy, put the
object, then update the hit row (overwrite) or create a new row.  The
create stores `params.name` as the row name, also in the disambiguation
branch, where the random suffix reaches only the key. -/
def uploadFileCore (bucket : String) (env : Env) (fuel : Nat)
    (pname : String) (ptype : Option String) (psize : Option Nat)
    (parentId : Option Nat) (overwrite : Option Bool)
    (existing : Option S3File) (st : St) : Except Err FileIdName × St :=
  match existing with
  | some ef =>
    if overwrite == some true then
      (.ok { id := ef.id, name := ef.name },
       { st with
         rows := st.rows.map (fun r =>
           if r.id == ef.id then
             { r with type := setIfSome ptype r.type,
                      size := setIfSome psize r.size,
                      s3Response := some st.respCtr }
           else r),
         respCtr := st.respCtr + 1,
         trace := st.trace ++ [Event.putObject ef.s3Key true] })
    else
      let nm := disambName (env.rand6 st.randCtr) pname
      match dirOfParent st.rows fuel parentId with
      | .error e => (.error e, { st with randCtr := st.randCtr + 1 })
      | .ok dir =>
        (.ok { id := st.nextId, name := pname },
         { st with
           rows := st.rows ++
             [{ id := st.nextId, name := pname, type := ptype, size := psize,
                s3Bucket := bucket, s3Key := dir ++ nm,
                s3Response := some st.respCtr, parentId := parentId,
                uploadId := none, uploadProgress := none }],
           nextId := st.nextId + 1, randCtr := st.randCtr + 1,
           respCtr := st.respCtr + 1,
           trace := st.trace ++ [Event.putObject (dir ++ nm) true] })
  | none =>
    match dirOfParent st.rows fuel parentId with
    | .error e => (.error e, st)
    | .ok dir =>
      (.ok { id := st.nextId, name := pname },
       { st with
         rows := st.rows ++
           [{ id := st.nextId, name := pname, type := ptype, size := psize,
              s3Bucket := bucket, s3Key := dir ++ pname,
              s3Response := some st.respCtr, parentId := parentId,
              uploadId := none, uploadProgress := none }],
         nextId := st.nextId + 1, respCtr := st.respCtr + 1,
         trace := st.trace ++ [Event.putObject (dir ++ pname) true] })

/-- Model of `uploadFile` of the first revision (lines 161-262): reject `path`
together with `parentId`; resolve `path` through `createFolder`; look up a
colliding row when a name was given, else draw a fresh uuid as the name;
then run the collision policy. -/
def uploadFile (bucket : String) (env : Env) (fuel : Nat) (p : UploadParams)
    (st : St) : Except Err FileIdName × St :=
  if optStrTruthy p.path && p.parentId.isSome then
    (.error .bothParentAndPath, st)
  else
    match (if optStrTruthy p.path then
             createFolder bucket fuel (p.path.getD "") none st
           else (.ok p.parentId, st)) with
    | (.error e, st1) => (.error e, st1)
    | (.ok parentId, st1) =>
      if optStrTruthy p.name then
        uploadFileCore bucket env fuel (p.name.getD "") p.type p.size parentId
          p.overwrite
          (st1.rows.find? (fun r =>
            r.name == p.name.getD "" && r.s3Bucket == bucket &&
            parentFilter parentId r.parentId)) st1
      else
        uploadFileCore bucket env fuel (env.uuid st1.uuidCtr) p.type p.size
          parentId p.overwrite none { st1 with uuidCtr := st1.uuidCtr + 1 }

/-- Parameters of `uploadFile` of the second revision (lines 667-673):
the multer file plus target and flags. -/
structure UploadParamsV2 where
  originalname : String
  mimetype : String
  size : Nat
  parentId : Option Nat
  path : Option String
  overwrite : Option Bool
  useOriginalName : Option Bool
deriving Repr, DecidableEq

/-- The overwrite lookup of the second revision (lines 674-683): only run
when `overwrite` is truthy. -/
def overwriteHit (bucket : String) (p : UploadParamsV2) (st : St) :
    Option S3File :=
  if p.overwrite == some true then
    st.rows.find? (fun r =>
      r.name == p.originalname && r.s3Bucket == bucket &&
      parentFilter p.parentId r.parentId)
  else none

/-- The directory part of the second revision key (lines 709-727):
`parentId` resolves through the ancestor chain, else a truthy `path` is
used verbatim, else the bucket root. -/
def keyDirV2 (rows : List S3File) (fuel : Nat) (parentId : Option Nat)
    (path : Option String) : Except Err String :=
  match parentId with
  | some p =>
    match getFilePathString rows fuel p with
    | .error e => .error e
    | .ok pre => .ok (pre ++ "/")
  | none =>
    match path with
    | some pa => if pa == "" then .ok "" else .ok (pa ++ "/")
    | none => .ok ""

/-- Model of `uploadFile` of the second revision (lines 667-756): on a truthy
`overwrite` with a name hit, put at the existing key and update the row in
place; otherwise choose the original name (when `useOriginalName` is
`undefined` or `true`) or a fresh uuid with the original extension, put,
and create a new row named after the original name. -/
def uploadFileV2 (bucket : String) (env : Env) (fuel : Nat)
    (p : UploadParamsV2) (st : St) : Except Err FileIdName × St :=
  match overwriteHit bucket p st with
  | some ef =>
    (.ok { id := ef.id, name := p.originalname },
     { st with
       rows := st.rows.map (fun r =>
         if r.id == ef.id then
           { r with name := p.originalname, type := some p.mimetype,
                    size := some p.size, s3Response := some st.respCtr }
         else r),
       respCtr := st.respCtr + 1,
       trace := st.trace ++ [Event.putObject ef.s3Key true] })
  | none =>
    let pick : String × St :=
      if p.useOriginalName == none || p.useOriginalName == some true then
        (p.originalname, st)
      else
        (env.uuid st.uuidCtr ++ extname p.originalname,
         { st with uuidCtr := st.uuidCtr + 1 })
    match keyDirV2 pick.2.rows fuel p.parentId p.path with
    | .error e => (.error e, pick.2)
    | .ok dir =>
      (.ok { id := pick.2.nextId, name := p.originalname },
       { pick.2 with
         rows := pick.2.rows ++
           [{ id := pick.2.nextId, name := p.originalname,
              type := some p.mimetype, size := some p.size,
              s3Bucket := bucket, s3Key := dir ++ pick.1,
              s3Response := some pick.2.respCtr, parentId := p.parentId,
              uploadId := none, uploadProgress := none }],
         nextId := pick.2.nextId + 1, respCtr := pick.2.respCtr + 1,
         trace := pick.2.trace ++ [Event.putObject (dir ++ pick.1) true] })

/-- The classification step of `syncFilesFromS3ToDatabase` (first revision,
lines 56-76): name, type and size derived from the listed key. -/
def syncRow (bucket : String) (nextId : Nat) (o : S3Object) : S3File :=
  if endsWithChar '/' o.s3Key then
    { id := nextId,
      name := ((splitOnChar '/' (dropRightStr o.s3Key 1)).getLastD ""),
      type := some "folder", size := o.size, s3Bucket := bucket,
      s3Key := o.s3Key, s3Response := none, parentId := none,
      uploadId := none, uploadProgress := none }
  else
    { id := nextId, name := ((splitOnChar '/' o.s3Key).getLastD ""),
      type := some ((splitOnChar '.' o.s3Key).getLastD ""), size := o.size,
      s3Bucket := bucket, s3Key := o.s3Key, s3Response := none,
      parentId := none, uploadId := none, uploadProgress := none }

/-- The key of the parent row derived in the linking pass (lines 86-102):
drop a trailing slash, strip the last segment, append a slash. -/
def parentKeyOf (s3Key : String) : Option String :=
  let parts := if endsWithChar '/' s3Key then
                 splitOnChar '/' (dropRightStr s3Key 1)
               else splitOnChar '/' s3Key
  if parts.length > 1 then
    some (joinSlash parts.dropLast ++ "/")
  else none

/-- Model of `syncFilesFromS3ToDatabase` of the first revision (lines 35-104): fail
with a conflict when the table is non-empty; list the bucket; bulk-create
one row per key with `parentId` unset; then link each row to the row whose
key is its derived parent key, when present.  The lookup map is a JS `Map`
built from key-id pairs, so a later duplicate key wins. -/
def syncFilesFromS3ToDatabase (bucket : String) (objects : List S3Object)
    (st : St) : Except Err Unit × St :=
  if st.rows.length > 0 then (.error .conflict, st)
  else
    let st0 := { st with trace := st.trace ++ [Event.storeList] }
    let created := objects.foldl
      (fun (acc : List S3File × Nat) o =>
        (acc.1 ++ [syncRow bucket acc.2 o], acc.2 + 1)) ([], st0.nextId)
    let st1 := { st0 with rows := st0.rows ++ created.1, nextId := created.2 }
    let lookup := fun (k : String) =>
      (created.1.reverse.find? (fun f => f.s3Key == k)).map (fun f => f.id)
    let st2 := created.1.foldl
      (fun (s : St) f =>
        match parentKeyOf f.s3Key with
        | none => s
        | some pk =>
          match lookup pk with
          | none => s
          | some pid =>
            { s with rows := s.rows.map (fun r =>
                if r.id == f.id then { r with parentId := some pid } else r) })
      st1
    (.ok (), st2)

mutual

/-- Model of `deleteFileRecursively` (lines 482-495): delete the row, then recurse
into every row whose `parentId` is the deleted id.  Fuelled; the source
recursion is unbounded. -/
def deleteFileRecursively : Nat → Nat → St → Except Err Unit × St
  | 0, _, st => (.error .outOfFuel, st)
  | fuel + 1, fileId, st =>
    match st.rows.find? (fun r => r.id == fileId) with
    | none => (.error .notFound, st)
    | some _ =>
      let st1 := { st with rows := st.rows.filter (fun r => !(r.id == fileId)),
                           trace := st.trace ++ [Event.dbDelete fileId] }
      deleteChildren fuel
        ((st1.rows.filter (fun r => r.parentId == some fileId)).map
          (fun r => r.id)) st1

/-- The `for` loop of `deleteFileRecursively` over the collected child
ids. -/
def deleteChildren : Nat → List Nat → St → Except Err Unit × St
  | _, [], st => (.ok (), st)
  | fuel, cid :: rest, st =>
    match deleteFileRecursively fuel cid st with
    | (.error e, st1) => (.error e, st1)
    | (.ok _, st1) => deleteChildren fuel rest st1

end

/-- Model of `deleteFile` (lines 299-314, identical in both revisions): resolve the
row, ask the store to delete everything under its key first (the outcome
of that collaborator call is the `storeDel` input), and only on store
success delete the index subtree. -/
def deleteFile (fileId : Nat) (storeDel : Except Err Unit) (fuel : Nat)
    (st : St) : Except Err Unit × St :=
  match st.rows.find? (fun r => r.id == fileId) with
  | none => (.error .notFound, st)
  | some f =>
    let st1 := { st with trace :=
      st.trace ++ [Event.deleteObjectRecursively f.s3Bucket f.s3Key] }
    match storeDel with
    | .error e => (.error e, st1)
    | .ok _ => deleteFileRecursively fuel fileId st1

/-- Model of `uploadPart` (lines 355-375, identical in both revisions): find the row
by `uploadId`, persist the caller-supplied progress hint, then forward the
part to the store; `storeRes` is the collaborator outcome carrying the
ETag. -/
def uploadPart (uploadId : String) (uploadProgress : Nat) (partNumber : Nat)
    (storeRes : Except Err String) (st : St) :
    Except Err (String × Nat) × St :=
  match st.rows.find? (fun r => r.uploadId == some uploadId) with
  | none => (.error .notFound, st)
  | some f =>
    let st1 := { st with rows := st.rows.map (fun (r : S3File) =>
      if r.id == f.id then { r with uploadProgress := some uploadProgress }
      else r) }
    let st2 := { st1 with trace :=
      st1.trace ++ [Event.storeUploadPart f.s3Key uploadId partNumber] }
    match storeRes with
    | .error e => (.error e, st2)
    | .ok etag => (.ok (etag, partNumber), st2)

/-- One `{ETag, PartNumber}` pair of `completeMultipartUpload`. -/
structure PartInput where
  eTag : String
  partNumber : Nat
deriving Repr, DecidableEq

/-- Model of `completeMultipartUpload` (lines 377-399, identical in both revisions):
find the row by `uploadId`, forward the part list to the store, and on
store success persist the completion response and set the progress to 100;
`uploadId` is not cleared. -/
def completeMultipartUpload (uploadId : String) (parts : List PartInput)
    (storeRes : Except Err Nat) (st : St) : Except Err S3File × St :=
  match st.rows.find? (fun r => r.uploadId == some uploadId) with
  | none => (.error .notFound, st)
  | some f =>
    let st1 := { st with trace :=
      st.trace ++ [Event.storeComplete f.s3Key uploadId
        (parts.map (fun q => (q.eTag, q.partNumber)))] }
    match storeRes with
    | .error e => (.error e, st1)
    | .ok resp =>
      (.ok { f with s3Response := some resp, uploadProgress := some 100 },
       { st1 with rows := st1.rows.map (fun r =>
         if r.id == f.id then
           { r with s3Response := some resp, uploadProgress := some 100 }
         else r) })

/-! ### Facts about the check-then-create folder loop -/

/-- A successful `createFolderLoop` run only appends rows. -/
theorem createFolderLoop_rows_mono (bucket : String) (fuel : Nat) :
    ∀ (segs : List String) (pid : Option Nat) (st : St) (res : Option Nat)
      (st' : St),
    createFolderLoop bucket fuel segs pid st = (.ok res, st') →
    ∃ tl, st'.rows = st.rows ++ tl := by
  intro segs
  induction segs with
  | nil =>
    intro pid st res st' h
    simp only [createFolderLoop, Prod.mk.injEq, Except.ok.injEq] at h
    exact ⟨[], by simp [h.2.symm]⟩
  | cons seg rest ih =>
    intro pid st res st' h
    simp only [createFolderLoop] at h
    by_cases hseg : seg.length = 0
    · simp only [hseg, if_true] at h
      exact ih _ _ _ _ h
    · simp only [hseg, if_false] at h
      split at h
      · exact ih _ _ _ _ h
      · split at h
        · simp at h
        · rename_i k hkey
          obtain ⟨tl, htl⟩ := ih _ _ _ _ h
          simp only at htl
          refine ⟨({ id := st.nextId, name := seg, type := some "folder",
                     size := none, s3Bucket := bucket, s3Key := k,
                     s3Response := some st.respCtr, parentId := pid,
                     uploadId := none, uploadProgress := none } : S3File)
                   :: tl, ?_⟩
          rw [htl]
          simp

/-- The created folder row satisfies the lookup condition it was created
under. -/
theorem folderMatch_created (bucket : String) (seg : String) (k : String)
    (pid : Option Nat) (n resp : Nat) :
    folderMatch seg pid
      { id := n, name := seg, type := some "folder", size := none,
        s3Bucket := bucket, s3Key := k, s3Response := some resp,
        parentId := pid, uploadId := none, uploadProgress := none } = true := by
  cases pid <;> simp [folderMatch, parentFilter]

/-- Rerunning the loop on the final state of a successful run descends the
chain the first run established, returns the same folder id and leaves the
state untouched. -/
theorem createFolderLoop_idem (bucket : String) (fuel : Nat) :
    ∀ (segs : List String) (pid : Option Nat) (st : St) (res : Option Nat)
      (st' : St),
    createFolderLoop bucket fuel segs pid st = (.ok res, st') →
    createFolderLoop bucket fuel segs pid st' = (.ok res, st') := by
  intro segs
  induction segs with
  | nil =>
    intro pid st res st' h
    simp only [createFolderLoop, Prod.mk.injEq, Except.ok.injEq] at h ⊢
    exact ⟨h.1, trivial⟩
  | cons seg rest ih =>
    intro pid st res st' h
    simp only [createFolderLoop] at h ⊢
    by_cases hseg : seg.length = 0
    · simp only [hseg, if_true] at h ⊢
      exact ih _ _ _ _ h
    · simp only [hseg, if_false] at h ⊢
      split at h
      · rename_i f hfind
        obtain ⟨tl, htl⟩ := createFolderLoop_rows_mono bucket fuel _ _ _ _ _ h
        have hfind' : st'.rows.find? (folderMatch seg pid) = some f := by
          rw [htl, List.find?_append, hfind]; rfl
        rw [hfind']
        exact ih _ _ _ _ h
      · rename_i hfind
        split at h
        · simp at h
        · rename_i k hkey
          obtain ⟨tl, htl⟩ := createFolderLoop_rows_mono bucket fuel _ _ _ _ _ h
          simp only at htl
          rw [List.append_assoc, List.singleton_append] at htl
          have hfind' : st'.rows.find? (folderMatch seg pid) =
              some { id := st.nextId, name := seg, type := some "folder",
                     size := none, s3Bucket := bucket, s3Key := k,
                     s3Response := some st.respCtr, parentId := pid,
                     uploadId := none, uploadProgress := none } := by
            rw [htl, List.find?_append, hfind]
            simp [List.find?_cons, folderMatch_created bucket seg k pid]
          rw [hfind']
          exact ih _ _ _ _ h

/-- Both folder loops skip every empty segment without touching anything. -/
theorem createFolderLoop_all_empty (bucket : String) (fuel : Nat) :
    ∀ (segs : List String) (pid : Option Nat) (st : St),
    (∀ s ∈ segs, s = "") →
    createFolderLoop bucket fuel segs pid st = (.ok pid, st) := by
  intro segs
  induction segs with
  | nil => intro pid st _; rfl
  | cons seg rest ih =>
    intro pid st hall
    have hseg : seg = "" := hall seg (by simp)
    subst hseg
    simp only [createFolderLoop, String.length, if_true]
    exact ih pid st (fun s hs => hall s (by simp [hs]))

/-- Empty-segment skipping for the unconditional loop of the second
revision. -/
theorem createFolderLoopV2_all_empty (bucket : String) (fuel : Nat) :
    ∀ (segs : List String) (pid : Option Nat) (acc : String) (j : Nat)
      (st : St),
    (∀ s ∈ segs, s = "") →
    createFolderLoopV2 bucket fuel segs pid acc j st = (.ok pid, st) := by
  intro segs
  induction segs with
  | nil => intro pid acc j st _; rfl
  | cons seg rest ih =>
    intro pid acc j st hall
    have hseg : seg = "" := hall seg (by simp)
    subst hseg
    simp only [createFolderLoopV2, String.length, if_true]
    exact ih pid acc j st (fun s hs => hall s (by simp [hs]))

/-! ### Fixtures: concrete states and oracles used by the witnesses -/

/-- The empty index with all counters at zero. -/
def emptySt : St :=
  { rows := [], nextId := 0, uuidCtr := 0, randCtr := 0, respCtr := 0,
    trace := [] }

/-- Deterministic oracles standing in for the random generators. -/
def envW : Env :=
  { uuid := fun _ => "gen-uuid", rand6 := fun _ => "RND000" }

/-- The state produced by `createFolder "b" 5 "docs" none emptySt`. -/
def stDocs : St :=
  { rows := [{ id := 0, name := "docs", type := some "folder", size := none,
               s3Bucket := "b", s3Key := "docs", s3Response := some 0,
               parentId := none, uploadId := none, uploadProgress := none }],
    nextId := 1, uuidCtr := 0, randCtr := 0, respCtr := 1,
    trace := [Event.putObject "docs/" false] }

/-! ### Claim C4 -/

/-- Claim C4: under the check-then-create policy (`createFolder`, first
revision), a second call with the same path and parent on the state left
by a successful first call returns the same leaf folder id and leaves the
state exactly as it was: no folder row is created and no store call is
issued. -/
theorem createFolder_idempotent (bucket : String) (fuel : Nat)
    (path : String) (parentId : Option Nat) (st : St) (res : Option Nat)
    (st' : St)
    (h : createFolder bucket fuel path parentId st = (.ok res, st')) :
    createFolder bucket fuel path parentId st' = (.ok res, st') :=
  createFolderLoop_idem bucket fuel _ _ _ _ _ h

/-- Witness for C4: creating the folder `docs` in the empty index yields
folder id 0, and the repeated call returns id 0 again without changing
anything. -/
theorem createFolder_idempotent_witness :
    createFolder "b" 5 "docs" none emptySt = (.ok (some 0), stDocs) ∧
    createFolder "b" 5 "docs" none stDocs = (.ok (some 0), stDocs) :=
  ⟨by decide,
   createFolder_idempotent "b" 5 "docs" none emptySt (some 0) stDocs
     (by decide)⟩

/-! ### Claim C8 -/

/-- Counterexample to C8: `createFolder` (first revision) called with the
path `"/"`, whose split yields no non-empty segment, does not fail with
any error; it succeeds, returns the given parent (here the root) and
leaves the state untouched.  The claim predicted an InvalidArgument
failure. -/
theorem createFolder_slash_counterexample :
    createFolder "b" 5 "/" none emptySt = (.ok none, emptySt) := by decide

/-- Claim C8 as amended: a `createFolder` path with no non-empty segment
is a silent no-op in the first revision, returning the given parent id,
creating no row and issuing no store call; the second revision fails (with
the empty-folder-name error) only for the literal empty string, and is the
same silent no-op for paths made of slashes only. -/
theorem createFolder_empty_path_noop (bucket : String) (fuel : Nat)
    (path name : String) (pid pid2 pid3 : Option Nat) (st st2 st3 : St)
    (hA : ∀ s ∈ splitOnChar '/' (trimSlashes path), s = "")
    (hB : ∀ s ∈ splitOnChar '/' name, s = "")
    (hBlen : 2 ≤ (splitOnChar '/' name).length) :
    createFolder bucket fuel path pid st = (.ok pid, st) ∧
    createFolderV2 bucket fuel "" pid2 st2 = (.error .emptyFolderName, st2) ∧
    createFolderV2 bucket fuel name pid3 st3 = (.ok pid3, st3) := by
  refine ⟨createFolderLoop_all_empty bucket fuel _ pid st hA, rfl, ?_⟩
  have hbeq : ((splitOnChar '/' name).length == 1) = false := by
    rw [beq_eq_false_iff_ne]
    omega
  simp only [createFolderV2, hbeq, Bool.false_and, Bool.false_eq_true,
    if_false]
  exact createFolderLoopV2_all_empty bucket fuel _ pid3 "" 0 st3 hB

/-- Witness for the amended C8 at `path = "/"`, `name = "//"`. -/
theorem createFolder_empty_path_noop_witness :
    createFolder "b" 5 "/" (some 4) emptySt = (.ok (some 4), emptySt) ∧
    createFolderV2 "b" 5 "" (some 4) emptySt =
      (.error .emptyFolderName, emptySt) ∧
    createFolderV2 "b" 5 "//" (some 4) emptySt = (.ok (some 4), emptySt) :=
  createFolder_empty_path_noop "b" 5 "/" "//" (some 4) (some 4) (some 4)
    emptySt emptySt emptySt (by decide) (by decide) (by decide)

/-! ### Claim C5 -/

/-- The state `sync` builds from the listing `docs/`, `docs/report.pdf`
over the empty index. -/
def stSynced : St :=
  { rows := [{ id := 0, name := "docs", type := some "folder", size := some 0,
               s3Bucket := "b", s3Key := "docs/", s3Response := none,
               parentId := none, uploadId := none, uploadProgress := none },
             { id := 1, name := "report.pdf", type := some "pdf",
               size := some 1024, s3Bucket := "b",
               s3Key := "docs/report.pdf", s3Response := none,
               parentId := some 0, uploadId := none,
               uploadProgress := none }],
    nextId := 2, uuidCtr := 0, randCtr := 0, respCtr := 0,
    trace := [Event.storeList] }

/-- Claim C5: `sync` on the empty index over the listing `{docs/,
docs/report.pdf}` creates exactly two rows; the `docs/` row is classified
as a folder, the `docs/report.pdf` row as a file (type from its
extension), and the file row points at the folder row through `parentId`,
derived by stripping the last segment of the key and appending a slash. -/
theorem sync_links_file_to_folder :
    syncFilesFromS3ToDatabase "b"
      [{ s3Key := "docs/", size := some 0 },
       { s3Key := "docs/report.pdf", size := some 1024 }] emptySt
      = (.ok (), stSynced) ∧
    stSynced.rows.length = 2 ∧
    (stSynced.rows.get? 0).map (fun r => (r.s3Key, r.type, r.parentId))
      = some ("docs/", some "folder", none) ∧
    (stSynced.rows.get? 1).map (fun r => (r.s3Key, r.type, r.parentId))
      = some ("docs/report.pdf", some "pdf", some 0) := by
  refine ⟨by decide, by decide, by decide, by decide⟩

/-! ### Claim C7 -/

/-- Claim C7: `sync` fails with the conflict error exactly when the index
holds at least one row when called; in that case no store listing is
issued and the state (in particular the index) is unchanged. -/
theorem sync_conflict_iff_nonempty (bucket : String)
    (objects : List S3Object) (st : St) :
    ((syncFilesFromS3ToDatabase bucket objects st).1 = .error .conflict ↔
      st.rows ≠ []) ∧
    (st.rows ≠ [] → (syncFilesFromS3ToDatabase bucket objects st).2 = st) := by
  by_cases h : st.rows.length > 0
  · have hne : st.rows ≠ [] := by
      intro hnil
      rw [hnil] at h
      simp at h
    simp only [syncFilesFromS3ToDatabase, if_pos h]
    exact ⟨⟨fun _ => hne, fun _ => trivial⟩, fun _ => trivial⟩
  · have hnil : st.rows = [] := List.length_eq_zero.mp (by omega)
    simp only [syncFilesFromS3ToDatabase, if_neg h]
    constructor
    · simp [hnil]
    · intro hne
      exact absurd hnil hne

/-! ### Claim C6 -/

/-- A trace extension consisting of index row deletions only. -/
def OnlyDbDeletes (tl : List Event) : Prop :=
  ∀ ev ∈ tl, ∃ i, ev = Event.dbDelete i

/-- The recursive index deletion appends only row-deletion events to the
trace, whatever its outcome. -/
theorem deleteRec_trace_only_dbDeletes (fuel : Nat) :
    (∀ (fileId : Nat) (st : St), ∃ tl,
      ((deleteFileRecursively fuel fileId st).2).trace = st.trace ++ tl ∧
      OnlyDbDeletes tl) ∧
    (∀ (ids : List Nat) (st : St), ∃ tl,
      ((deleteChildren fuel ids st).2).trace = st.trace ++ tl ∧
      OnlyDbDeletes tl) := by
  induction fuel with
  | zero =>
    constructor
    · intro fileId st
      exact ⟨[], by simp [deleteFileRecursively], fun ev hev => by simp at hev⟩
    · intro ids st
      cases ids with
      | nil => exact ⟨[], by simp [deleteChildren], fun ev hev => by simp at hev⟩
      | cons cid rest =>
        exact ⟨[], by simp [deleteChildren, deleteFileRecursively],
               fun ev hev => by simp at hev⟩
  | succ fuel ih =>
    have hrec : ∀ (fileId : Nat) (st : St), ∃ tl,
        ((deleteFileRecursively (fuel + 1) fileId st).2).trace =
          st.trace ++ tl ∧ OnlyDbDeletes tl := by
      intro fileId st
      simp only [deleteFileRecursively]
      split
      · exact ⟨[], by simp, fun ev hev => by simp at hev⟩
      · obtain ⟨tl, htl, hall⟩ := ih.2 _
          { st with rows := st.rows.filter (fun r => !(r.id == fileId)),
                    trace := st.trace ++ [Event.dbDelete fileId] }
        refine ⟨Event.dbDelete fileId :: tl, ?_, ?_⟩
        · rw [htl]
          simp
        · intro ev hev
          rcases List.mem_cons.mp hev with h | h
          · exact ⟨fileId, h⟩
          · exact hall ev h
    refine ⟨hrec, ?_⟩
    intro ids
    induction ids with
    | nil =>
      intro st
      exact ⟨[], by simp [deleteChildren], fun ev hev => by simp at hev⟩
    | cons cid rest ihids =>
      intro st
      simp only [deleteChildren]
      obtain ⟨tl1, htl1, hall1⟩ := hrec cid st
      rcases hdel : deleteFileRecursively (fuel + 1) cid st with ⟨outcome, st1⟩
      rw [hdel] at htl1
      cases outcome with
      | error e => exact ⟨tl1, htl1, hall1⟩
      | ok u =>
        obtain ⟨tl2, htl2, hall2⟩ := ihids st1
        refine ⟨tl1 ++ tl2, ?_, ?_⟩
        · rw [htl2, htl1, List.append_assoc]
        · intro ev hev
          rcases List.mem_append.mp hev with h | h
          · exact hall1 ev h
          · exact hall2 ev h

/-- Claim C6: `deleteFile` asks the store to delete the key range first;
when the store call fails, that error is surfaced and the index rows are
untouched (only the attempted store call was traced); when the store call
succeeds, the trace extension starts with the store deletion and all later
entries are index row deletions. -/
theorem deleteFile_store_deletion_first (fileId fuel : Nat) (st : St)
    (E : S3File) (e : Err)
    (hfind : st.rows.find? (fun r => r.id == fileId) = some E) :
    (deleteFile fileId (.error e) fuel st =
      (.error e,
       { st with trace := st.trace ++
           [Event.deleteObjectRecursively E.s3Bucket E.s3Key] })) ∧
    (∃ tl, ((deleteFile fileId (.ok ()) fuel st).2).trace =
      st.trace ++ Event.deleteObjectRecursively E.s3Bucket E.s3Key :: tl ∧
      OnlyDbDeletes tl) := by
  constructor
  · simp only [deleteFile, hfind]
  · simp only [deleteFile, hfind]
    obtain ⟨tl, htl, hall⟩ := (deleteRec_trace_only_dbDeletes fuel).1 fileId
      { st with trace := st.trace ++
          [Event.deleteObjectRecursively E.s3Bucket E.s3Key] }
    refine ⟨tl, ?_, hall⟩
    rw [htl]
    simp

/-- Witness for C6: deleting the only file while the store fails with code
3 propagates the failure and keeps the row; a successful store deletion is
followed by the row deletion. -/
theorem deleteFile_store_deletion_first_witness :
    (deleteFile 0 (.error (.storeFailure 3)) 5 stDocs =
      (.error (.storeFailure 3),
       { stDocs with trace := stDocs.trace ++
           [Event.deleteObjectRecursively "b" "docs"] })) ∧
    (∃ tl, ((deleteFile 0 (.ok ()) 5 stDocs).2).trace =
      stDocs.trace ++ Event.deleteObjectRecursively "b" "docs" :: tl ∧
      OnlyDbDeletes tl) := by
  have h := deleteFile_store_deletion_first 0 5 stDocs
    { id := 0, name := "docs", type := some "folder", size := none,
      s3Bucket := "b", s3Key := "docs", s3Response := some 0,
      parentId := none, uploadId := none, uploadProgress := none }
    (.storeFailure 3) (by decide)
  exact h

/-! ### Claim C9 -/

/-- Claim C9: a successful `completeMultipartUpload` on the row holding
the upload id persists the store completion response and sets the
progress to 100, leaving every other field of that row (id, name, key,
parent, upload id) and every other row unchanged; the upload id is kept,
not cleared. -/
theorem completeMultipartUpload_success_frame (uploadId : String)
    (parts : List PartInput) (resp : Nat) (st : St) (E : S3File)
    (hfind : st.rows.find? (fun r => r.uploadId == some uploadId) = some E) :
    completeMultipartUpload uploadId parts (.ok resp) st =
      (.ok { E with s3Response := some resp, uploadProgress := some 100 },
       { st with
         rows := st.rows.map (fun r =>
           if r.id == E.id then
             { r with s3Response := some resp, uploadProgress := some 100 }
           else r),
         trace := st.trace ++ [Event.storeComplete E.s3Key uploadId
           (parts.map (fun q => (q.eTag, q.partNumber)))] }) ∧
    E.uploadId = some uploadId ∧
    List.Forall₂ (fun old new =>
        new.id = old.id ∧ new.name = old.name ∧ new.s3Key = old.s3Key ∧
        new.parentId = old.parentId ∧ new.uploadId = old.uploadId ∧
        (¬old.id = E.id → new = old))
      st.rows ((completeMultipartUpload uploadId parts (.ok resp) st).2).rows := by
  have heq : completeMultipartUpload uploadId parts (.ok resp) st =
      (.ok { E with s3Response := some resp, uploadProgress := some 100 },
       { st with
         rows := st.rows.map (fun r =>
           if r.id == E.id then
             { r with s3Response := some resp, uploadProgress := some 100 }
           else r),
         trace := st.trace ++ [Event.storeComplete E.s3Key uploadId
           (parts.map (fun q => (q.eTag, q.partNumber)))] }) := by
    simp only [completeMultipartUpload, hfind]
  refine ⟨heq, ?_, ?_⟩
  · have := List.find?_some hfind
    simpa using this
  · rw [heq]
    simp only
    rw [List.forall₂_map_right_iff]
    rw [List.forall₂_same]
    intro r hr
    by_cases hid : r.id = E.id
    · simp [hid]
    · have : (r.id == E.id) = false := by
        rw [beq_eq_false_iff_ne]
        exact hid
      simp [this, hid]

/-! ### Claim C10 -/

/-- Claim C10: `uploadPart` persists the caller-supplied progress hint on
the row before calling the store; when the store-side part upload fails,
the error is propagated, the attempted store call is traced, and the
already persisted progress update is not rolled back. -/
theorem uploadPart_progress_not_rolled_back (uploadId : String)
    (prog partNumber : Nat) (e : Err) (st : St) (E : S3File)
    (hfind : st.rows.find? (fun r => r.uploadId == some uploadId) = some E) :
    uploadPart uploadId prog partNumber (.error e) st =
      (.error e,
       { st with
         rows := st.rows.map (fun r =>
           if r.id == E.id then { r with uploadProgress := some prog }
           else r),
         trace := st.trace ++
           [Event.storeUploadPart E.s3Key uploadId partNumber] }) ∧
    (∃ r, r ∈ ((uploadPart uploadId prog partNumber (.error e) st).2).rows ∧
      r.id = E.id ∧ r.uploadProgress = some prog) := by
  have heq : uploadPart uploadId prog partNumber (.error e) st =
      (.error e,
       { st with
         rows := st.rows.map (fun r =>
           if r.id == E.id then { r with uploadProgress := some prog }
           else r),
         trace := st.trace ++
           [Event.storeUploadPart E.s3Key uploadId partNumber] }) := by
    simp only [uploadPart, hfind]
  refine ⟨heq, ?_⟩
  refine ⟨{ E with uploadProgress := some prog }, ?_, rfl, rfl⟩
  rw [heq]
  simp only
  refine List.mem_map.mpr ⟨E, List.mem_of_find?_eq_some hfind, ?_⟩
  simp

/-- Witness for C7: `sync` on a one-row index fails with the conflict
error. -/
theorem sync_conflict_iff_nonempty_witness :
    (syncFilesFromS3ToDatabase "b" [] stDocs).1 = .error .conflict :=
  (sync_conflict_iff_nonempty "b" [] stDocs).1.mpr (by decide)

/-- A pending multipart placeholder row. -/
def rowMp : S3File :=
  { id := 0, name := "big.bin", type := some "bin", size := some 5,
    s3Bucket := "b", s3Key := "big.bin", s3Response := none,
    parentId := none, uploadId := some "U1", uploadProgress := some 0 }

/-- An index holding only the pending multipart placeholder. -/
def stMp : St :=
  { rows := [rowMp], nextId := 1, uuidCtr := 0, randCtr := 0, respCtr := 0,
    trace := [] }

/-- Witness for C9: completing upload `U1` with two parts returns the
placeholder row with progress 100, the completion response stored and the
upload id still present. -/
theorem completeMultipartUpload_success_frame_witness :
    (completeMultipartUpload "U1" [⟨"a", 1⟩, ⟨"b", 2⟩] (.ok 77) stMp).1 =
      .ok { rowMp with s3Response := some 77, uploadProgress := some 100 } := by
  have h := completeMultipartUpload_success_frame "U1" [⟨"a", 1⟩, ⟨"b", 2⟩]
    77 stMp rowMp (by decide)
  rw [h.1]

/-- Witness for C10: a failing store part upload still leaves the
persisted progress hint 40 on the row. -/
theorem uploadPart_progress_not_rolled_back_witness :
    ∃ r, r ∈ ((uploadPart "U1" 40 2 (.error (.storeFailure 9)) stMp).2).rows ∧
      r.id = rowMp.id ∧ r.uploadProgress = some 40 := by
  have h := uploadPart_progress_not_rolled_back "U1" 40 2 (.storeFailure 9)
    stMp rowMp (by decide)
  exact h.2

/-! ### Claims C1 and C2: the collision policy of `uploadFile` -/

/-- With no `path` and a truthy name, `uploadFile` reduces to the
collision-policy core applied to the result of the collision lookup. -/
theorem uploadFile_no_path_eq (bucket : String) (env : Env) (fuel : Nat)
    (p : UploadParams) (st : St) (n : String)
    (hpath : p.path = none) (hname : p.name = some n) (hne : ¬n = "") :
    uploadFile bucket env fuel p st =
      uploadFileCore bucket env fuel n p.type p.size p.parentId p.overwrite
        (st.rows.find? (fun r =>
          r.name == n && r.s3Bucket == bucket &&
          parentFilter p.parentId r.parentId)) st := by
  have h1 : optStrTruthy p.path = false := by rw [hpath]; rfl
  have h2 : optStrTruthy (some n) = true := by
    simp [optStrTruthy, hne]
  simp only [uploadFile, h1, Bool.false_and, Bool.false_eq_true, if_false,
    hname, h2, if_true, Option.getD_some]

/-- The row fixture shared by the upload claims: an existing
`report.pdf` at the bucket root. -/
def rowPdf : S3File :=
  { id := 0, name := "report.pdf", type := some "pdf", size := some 5,
    s3Bucket := "b", s3Key := "report.pdf", s3Response := none,
    parentId := none, uploadId := none, uploadProgress := none }

/-- An index holding only `rowPdf`. -/
def stPdf : St :=
  { rows := [rowPdf], nextId := 1, uuidCtr := 0, randCtr := 0, respCtr := 0,
    trace := [] }

/-- Claim C1: overwriting an existing name updates the hit row in place in
both revisions.  The first revision updates only `type`, `size` and
`s3Response` (skipping fields the caller left out); the second also writes
`name`, but with the very value the lookup matched, so the stored name is
unchanged.  In both, the row keeps its `id`, `name`, `s3Key`, `parentId`
and `uploadId`, every other row is untouched, and no row is created. -/
theorem uploadFile_overwrite_in_place (bucket : String) (env : Env)
    (fuel : Nat) (p : UploadParams) (p2 : UploadParamsV2) (st st2 : St)
    (n : String) (E E2 : S3File)
    (hpath : p.path = none) (hname : p.name = some n) (hne : ¬n = "")
    (how : p.overwrite = some true)
    (hfind : st.rows.find? (fun r =>
      r.name == n && r.s3Bucket == bucket &&
      parentFilter p.parentId r.parentId) = some E)
    (hhit : overwriteHit bucket p2 st2 = some E2)
    (hnodup : (st2.rows.map S3File.id).Nodup) :
    (uploadFile bucket env fuel p st =
      (.ok { id := E.id, name := E.name },
       { st with
         rows := st.rows.map (fun r =>
           if r.id == E.id then
             { r with type := setIfSome p.type r.type,
                      size := setIfSome p.size r.size,
                      s3Response := some st.respCtr }
           else r),
         respCtr := st.respCtr + 1,
         trace := st.trace ++ [Event.putObject E.s3Key true] }) ∧
     List.Forall₂ (fun old new =>
        new.id = old.id ∧ new.name = old.name ∧ new.s3Key = old.s3Key ∧
        new.parentId = old.parentId ∧ new.uploadId = old.uploadId ∧
        (¬old.id = E.id → new = old))
       st.rows ((uploadFile bucket env fuel p st).2).rows) ∧
    (uploadFileV2 bucket env fuel p2 st2 =
      (.ok { id := E2.id, name := p2.originalname },
       { st2 with
         rows := st2.rows.map (fun r =>
           if r.id == E2.id then
             { r with name := p2.originalname, type := some p2.mimetype,
                      size := some p2.size, s3Response := some st2.respCtr }
           else r),
         respCtr := st2.respCtr + 1,
         trace := st2.trace ++ [Event.putObject E2.s3Key true] }) ∧
     E2.name = p2.originalname ∧
     List.Forall₂ (fun old new =>
        new.id = old.id ∧ new.name = old.name ∧ new.s3Key = old.s3Key ∧
        new.parentId = old.parentId ∧ new.uploadId = old.uploadId ∧
        (¬old.id = E2.id → new = old))
       st2.rows ((uploadFileV2 bucket env fuel p2 st2).2).rows) := by
  have hover : (p.overwrite == some true) = true := by rw [how]; rfl
  have heqA : uploadFile bucket env fuel p st =
      (.ok { id := E.id, name := E.name },
       { st with
         rows := st.rows.map (fun r =>
           if r.id == E.id then
             { r with type := setIfSome p.type r.type,
                      size := setIfSome p.size r.size,
                      s3Response := some st.respCtr }
           else r),
         respCtr := st.respCtr + 1,
         trace := st.trace ++ [Event.putObject E.s3Key true] }) := by
    rw [uploadFile_no_path_eq bucket env fuel p st n hpath hname hne]
    simp only [uploadFileCore, hfind, hover, if_true]
  -- the overwrite lookup of the second revision really hit
  have hfind2 : st2.rows.find? (fun r =>
      r.name == p2.originalname && r.s3Bucket == bucket &&
      parentFilter p2.parentId r.parentId) = some E2 := by
    unfold overwriteHit at hhit
    split at hhit
    · exact hhit
    · simp at hhit
  have hprop := List.find?_some hfind2
  have hE2name : E2.name = p2.originalname := by
    have h1 := (Bool.and_eq_true _ _).mp hprop
    have h2 := (Bool.and_eq_true _ _).mp h1.1
    exact eq_of_beq h2.1
  have hE2mem : E2 ∈ st2.rows := List.mem_of_find?_eq_some hfind2
  have heqB : uploadFileV2 bucket env fuel p2 st2 =
      (.ok { id := E2.id, name := p2.originalname },
       { st2 with
         rows := st2.rows.map (fun r =>
           if r.id == E2.id then
             { r with name := p2.originalname, type := some p2.mimetype,
                      size := some p2.size, s3Response := some st2.respCtr }
           else r),
         respCtr := st2.respCtr + 1,
         trace := st2.trace ++ [Event.putObject E2.s3Key true] }) := by
    simp only [uploadFileV2, hhit]
  refine ⟨⟨heqA, ?_⟩, heqB, hE2name, ?_⟩
  · rw [heqA]
    simp only
    rw [List.forall₂_map_right_iff, List.forall₂_same]
    intro r hr
    by_cases hid : r.id = E.id
    · simp [hid]
    · have hb : (r.id == E.id) = false := by
        rw [beq_eq_false_iff_ne]
        exact hid
      simp [hb, hid]
  · rw [heqB]
    simp only
    rw [List.forall₂_map_right_iff, List.forall₂_same]
    intro r hr
    by_cases hid : r.id = E2.id
    · have hrE2 : r = E2 :=
        List.inj_on_of_nodup_map hnodup hr hE2mem hid
    -- the renamed row is the hit row itself, whose name already matches
      subst hrE2
      simp [hid, hE2name]
    · have hb : (r.id == E2.id) = false := by
        rw [beq_eq_false_iff_ne]
        exact hid
      simp [hb, hid]

/-- Witness for C1: overwriting `report.pdf` in both revisions returns the
existing id 0 with the unchanged name. -/
theorem uploadFile_overwrite_in_place_witness :
    (uploadFile "b" envW 5
      { name := some "report.pdf", type := some "application/pdf",
        size := some 10, parentId := none, path := none,
        overwrite := some true } stPdf).1 =
      .ok { id := 0, name := "report.pdf" } ∧
    (uploadFileV2 "b" envW 5
      { originalname := "report.pdf", mimetype := "application/pdf",
        size := 10, parentId := none, path := none, overwrite := some true,
        useOriginalName := none } stPdf).1 =
      .ok { id := 0, name := "report.pdf" } := by
  have h := uploadFile_overwrite_in_place "b" envW 5
    { name := some "report.pdf", type := some "application/pdf",
      size := some 10, parentId := none, path := none,
      overwrite := some true }
    { originalname := "report.pdf", mimetype := "application/pdf",
      size := 10, parentId := none, path := none, overwrite := some true,
      useOriginalName := none }
    stPdf stPdf "report.pdf" rowPdf rowPdf rfl rfl (by decide) rfl
    (by decide) (by decide) (by decide)
  constructor
  · rw [h.1.1]
    decide
  · rw [h.2.1]
    decide

/-- Counterexample to C2: uploading `report.pdf` over the existing
`report.pdf` with `overwrite` unset creates a new row (id 1), but the new
row name stored is the original `report.pdf`, not the disambiguated one; the
random suffix lands only in the key `reportRND000.pdf`.  The claim said
the name of the new node is the disambiguated name. -/
theorem uploadFile_collision_name_counterexample :
    (uploadFile "b" envW 5
      { name := some "report.pdf", type := some "application/pdf",
        size := some 10, parentId := none, path := none, overwrite := none }
      stPdf).1 = .ok { id := 1, name := "report.pdf" } ∧
    ((uploadFile "b" envW 5
      { name := some "report.pdf", type := some "application/pdf",
        size := some 10, parentId := none, path := none, overwrite := none }
      stPdf).2.rows.get? 1).map (fun r => (r.name, r.s3Key)) =
      some ("report.pdf", "reportRND000.pdf") := by
  exact ⟨by decide, by decide⟩

/-- Claim C2 as amended: with `overwrite` falsy and a collision, a new row
is created whose id is fresh (distinct from the id of the existing row under
the id-uniqueness of the table) and whose key ends in the disambiguated
name (random suffix before the extension) under the resolved parent
path — but the stored display name of the new row is the requested name,
unchanged. -/
theorem uploadFile_collision_disambiguates_key (bucket : String)
    (env : Env) (fuel : Nat) (p : UploadParams) (st : St) (n dir : String)
    (E : S3File)
    (hpath : p.path = none) (hname : p.name = some n) (hne : ¬n = "")
    (how : (p.overwrite == some true) = false)
    (hfind : st.rows.find? (fun r =>
      r.name == n && r.s3Bucket == bucket &&
      parentFilter p.parentId r.parentId) = some E)
    (hdir : dirOfParent st.rows fuel p.parentId = .ok dir)
    (hwf : ∀ r ∈ st.rows, r.id < st.nextId) :
    uploadFile bucket env fuel p st =
      (.ok { id := st.nextId, name := n },
       { st with
         rows := st.rows ++
           [{ id := st.nextId, name := n, type := p.type, size := p.size,
              s3Bucket := bucket,
              s3Key := dir ++ disambName (env.rand6 st.randCtr) n,
              s3Response := some st.respCtr, parentId := p.parentId,
              uploadId := none, uploadProgress := none }],
         nextId := st.nextId + 1, randCtr := st.randCtr + 1,
         respCtr := st.respCtr + 1,
         trace := st.trace ++
           [Event.putObject (dir ++ disambName (env.rand6 st.randCtr) n)
             true] }) ∧
    ¬st.nextId = E.id := by
  constructor
  · rw [uploadFile_no_path_eq bucket env fuel p st n hpath hname hne]
    simp only [uploadFileCore, hfind, how, Bool.false_eq_true, if_false,
      hdir]
  · have hmem := List.mem_of_find?_eq_some hfind
    have := hwf E hmem
    omega

/-- Witness for the amended C2 on the `report.pdf` collision: the new row
gets the fresh id 1 and its key is the disambiguated
`reportRND000.pdf`. -/
theorem uploadFile_collision_disambiguates_key_witness :
    uploadFile "b" envW 5
      { name := some "report.pdf", type := some "application/pdf",
        size := some 10, parentId := none, path := none, overwrite := none }
      stPdf =
      (.ok { id := 1, name := "report.pdf" },
       { stPdf with
         rows := stPdf.rows ++
           [{ id := 1, name := "report.pdf",
              type := some "application/pdf", size := some 10,
              s3Bucket := "b", s3Key := "reportRND000.pdf",
              s3Response := some 0, parentId := none, uploadId := none,
              uploadProgress := none }],
         nextId := 2, randCtr := 1, respCtr := 1,
         trace := [Event.putObject "reportRND000.pdf" true] }) ∧
    ¬stPdf.nextId = rowPdf.id := by
  have h := uploadFile_collision_disambiguates_key "b" envW 5
    { name := some "report.pdf", type := some "application/pdf",
      size := some 10, parentId := none, path := none, overwrite := none }
    stPdf "report.pdf" "" rowPdf rfl rfl (by decide) rfl (by decide) rfl
    (by decide)
  constructor
  · rw [h.1]
    decide
  · exact h.2

/-! ### Claim C3: the `useOriginalName` default of the second revision -/

/-- Counterexample to C3: uploading `report.pdf` (second revision) with
`useOriginalName` left unspecified and no collision stores the object
under the original file name of the caller — the key is `report.pdf` and no
uuid is drawn (the counter stays 0).  The claim said the default chooses a
generated token instead of the original name. -/
theorem uploadFileV2_default_name_counterexample :
    ((uploadFileV2 "b" envW 5
      { originalname := "report.pdf", mimetype := "application/pdf",
        size := 10, parentId := none, path := none, overwrite := none,
        useOriginalName := none } emptySt).2).rows.map
        (fun r => (r.name, r.s3Key)) = [("report.pdf", "report.pdf")] ∧
    ((uploadFileV2 "b" envW 5
      { originalname := "report.pdf", mimetype := "application/pdf",
        size := 10, parentId := none, path := none, overwrite := none,
        useOriginalName := none } emptySt).2).uuidCtr = 0 := by
  exact ⟨by decide, by decide⟩

/-- Claim C3 as amended: when `useOriginalName` is unspecified (or true)
the chosen object name, and hence the final key component, is the
original file name given by the caller and no token is generated; only an explicit
`useOriginalName = false` picks a fresh uuid carrying the original
extension — and even then the stored display name stays the original
name. -/
theorem uploadFileV2_name_choice (bucket : String) (env : Env) (fuel : Nat)
    (pa pb : UploadParamsV2) (sta stb : St) (dira dirb : String)
    (hhita : overwriteHit bucket pa sta = none)
    (hhitb : overwriteHit bucket pb stb = none)
    (ha : pa.useOriginalName = none)
    (hb : pb.useOriginalName = some false)
    (hdira : keyDirV2 sta.rows fuel pa.parentId pa.path = .ok dira)
    (hdirb : keyDirV2 stb.rows fuel pb.parentId pb.path = .ok dirb) :
    uploadFileV2 bucket env fuel pa sta =
      (.ok { id := sta.nextId, name := pa.originalname },
       { sta with
         rows := sta.rows ++
           [{ id := sta.nextId, name := pa.originalname,
              type := some pa.mimetype, size := some pa.size,
              s3Bucket := bucket, s3Key := dira ++ pa.originalname,
              s3Response := some sta.respCtr, parentId := pa.parentId,
              uploadId := none, uploadProgress := none }],
         nextId := sta.nextId + 1, respCtr := sta.respCtr + 1,
         trace := sta.trace ++
           [Event.putObject (dira ++ pa.originalname) true] }) ∧
    uploadFileV2 bucket env fuel pb stb =
      (.ok { id := stb.nextId, name := pb.originalname },
       { stb with
         rows := stb.rows ++
           [{ id := stb.nextId, name := pb.originalname,
              type := some pb.mimetype, size := some pb.size,
              s3Bucket := bucket,
              s3Key := dirb ++ (env.uuid stb.uuidCtr ++
                extname pb.originalname),
              s3Response := some stb.respCtr, parentId := pb.parentId,
              uploadId := none, uploadProgress := none }],
         nextId := stb.nextId + 1, uuidCtr := stb.uuidCtr + 1,
         respCtr := stb.respCtr + 1,
         trace := stb.trace ++
           [Event.putObject (dirb ++ (env.uuid stb.uuidCtr ++
             extname pb.originalname)) true] }) := by
  constructor
  · have hflag : (pa.useOriginalName == none ||
        pa.useOriginalName == some true) = true := by
      rw [ha]
      rfl
    simp only [uploadFileV2, hhita, hflag, if_true, hdira]
  · have hflag : (pb.useOriginalName == none ||
        pb.useOriginalName == some true) = false := by
      rw [hb]
      rfl
    simp only [uploadFileV2, hhitb, hflag, Bool.false_eq_true, if_false,
      hdirb]

/-- Witness for the amended C3: with the flag unspecified the key is the
original `report.pdf`; with the flag false it is the drawn token
`gen-uuid.pdf` while the row is still named `report.pdf`. -/
theorem uploadFileV2_name_choice_witness :
    (uploadFileV2 "b" envW 5
      { originalname := "report.pdf", mimetype := "application/pdf",
        size := 10, parentId := none, path := none, overwrite := none,
        useOriginalName := none } emptySt).1 =
      .ok { id := 0, name := "report.pdf" } ∧
    ((uploadFileV2 "b" envW 5
      { originalname := "report.pdf", mimetype := "application/pdf",
        size := 10, parentId := none, path := none, overwrite := none,
        useOriginalName := some false } emptySt).2).rows.map
        (fun r => (r.name, r.s3Key)) =
      [("report.pdf", "gen-uuid.pdf")] := by
  have h := uploadFileV2_name_choice "b" envW 5
    { originalname := "report.pdf", mimetype := "application/pdf",
      size := 10, parentId := none, path := none, overwrite := none,
      useOriginalName := none }
    { originalname := "report.pdf", mimetype := "application/pdf",
      size := 10, parentId := none, path := none, overwrite := none,
      useOriginalName := some false }
    emptySt emptySt "" "" rfl rfl rfl rfl rfl rfl
  constructor
  · rw [h.1]
    decide
  · rw [h.2]
    decide

end NewbieS3
